import Mathlib

/-!
Verification development for the history reconciliation core of a
watch-history synchronizer (`ServiceApi.ts`).

The TypeScript source is shallowly embedded: pure helpers become Lean
functions, the stateful `loadHistory` do-while loop becomes a fuel-indexed
step function on an explicit loop-state record, and fallible external
calls (page fetch, catalog search, watched-history sync, conversion) are
modelled with `Except` over environments describing their outcomes.
-/

namespace UTS

/-! ## Cache-key derivation (`getTraktCacheStr`, `getTraktCacheId`) -/

/-- A JavaScript word character, as matched by the regex class `\w`:
ASCII letters, ASCII digits and the underscore. -/
def isWordChar (c : Char) : Bool :=
  c.isAlpha || c.isDigit || c = '_'

/-- One pass collapsing every run of dashes to a single dash, mirroring
the second `.replace` (regex `-+`, replacement `-`).  The boolean records
whether the previously kept character was a dash. -/
def collapseDashesAux : List Char → Bool → List Char
  | [], _ => []
  | c :: rest, prevDash =>
    if c = '-' then
      if prevDash then collapseDashesAux rest true
      else '-' :: collapseDashesAux rest true
    else
      c :: collapseDashesAux rest false

/-- Embedding of `ServiceApi.getTraktCacheStr`: lowercase the title,
replace each non-word character (regex class `[^\w]`) with `-`, then
collapse every run of dashes (regex `-+`) to a single `-`. -/
def getTraktCacheStr (title : String) : String :=
  ⟨collapseDashesAux ((title.data.map Char.toLower).map (fun c => if isWordChar c then c else '-')) false⟩

/-- Type of an item: `'movie'` or `'show'`. -/
inductive ItemType where
  | movie
  | show
deriving DecidableEq

/-- A resolved catalog entry (the "trakt item"): an identity plus an
optional watched-at timestamp.  The identity fields are abstracted into a
single `traktId`. -/
structure TraktItem where
  traktId : Nat
  watchedAt : Option Nat
deriving DecidableEq

/-- The persisted/cache form of a catalog entry.  The save/load pair is an
external collaborator (`models/TraktItem`, not part of the verified
sources); it is modelled as the identity conversion. -/
abbrev SavedTraktItem := TraktItem

def TraktItem.load (s : SavedTraktItem) : TraktItem := s

def TraktItem.save (t : TraktItem) : SavedTraktItem := t

/-- Embedding of `models/Item` restricted to the fields the reconciliation
core reads.  `databaseId` is modelled from the spec ("a service-specific
`databaseId`"); the `Item` model file is an external collaborator. -/
structure Item where
  type : ItemType
  title : String
  year : Option Nat := none
  season : Option Nat := none
  episode : Option Nat := none
  episodeTitle : Option String := none
  databaseId : String := ""
  trakt : Option TraktItem := none
deriving DecidableEq

def Item.getDatabaseId (item : Item) : String := item.databaseId

/-- Embedding of `ServiceApi.getTraktCacheId`.  Note the movie branch uses
JavaScript truthiness (`item.year ? ... : ''`): a year of `0` yields no
suffix. -/
def getTraktCacheId (item : Item) : String :=
  if item.type = ItemType.show then
    "/shows/" ++ getTraktCacheStr item.title ++ "/seasons/" ++
      toString (item.season.getD 0) ++ "/episodes/" ++
      (match item.episode with
        | some e => toString e
        | none => getTraktCacheStr (item.episodeTitle.getD "0"))
  else
    "/movies/" ++ getTraktCacheStr item.title ++
      (match item.year with
        | some y => if y = 0 then "" else "-" ++ toString y
        | none => "")

/-- No two adjacent dashes occur in the list. -/
def noDoubleDash : List Char → Bool
  | [] => true
  | [_] => true
  | a :: b :: rest => !(a = '-' && b = '-') && noDoubleDash (b :: rest)

theorem collapseDashesAux_head_ne (l : List Char) :
    (collapseDashesAux l true).head? ≠ some '-' := by
  induction l with
  | nil => simp [collapseDashesAux]
  | cons c rest ih =>
    by_cases hc : c = '-'
    · simpa [collapseDashesAux, hc] using ih
    · simp [collapseDashesAux, hc]

theorem noDoubleDash_cons (a : Char) (l : List Char)
    (h1 : noDoubleDash l = true) (h2 : a = '-' → l.head? ≠ some '-') :
    noDoubleDash (a :: l) = true := by
  cases l with
  | nil => simp [noDoubleDash]
  | cons b rest =>
    have hb : ¬(a = '-' ∧ b = '-') := by
      rintro ⟨ha, hbeq⟩
      exact h2 ha (by simp [hbeq])
    simp only [noDoubleDash, h1, Bool.and_true]
    simp only [Bool.not_eq_true', Bool.and_eq_false_iff]
    by_cases ha : a = '-'
    · right
      have : ¬b = '-' := fun hbe => hb ⟨ha, hbe⟩
      simp [this]
    · left
      simp [ha]

theorem noDoubleDash_collapseDashesAux (l : List Char) (b : Bool) :
    noDoubleDash (collapseDashesAux l b) = true := by
  induction l generalizing b with
  | nil => simp [collapseDashesAux, noDoubleDash]
  | cons c rest ih =>
    by_cases hc : c = '-'
    · cases b with
      | true => simpa [collapseDashesAux, hc] using ih true
      | false =>
        simp only [collapseDashesAux, hc, if_pos, if_neg, Bool.false_eq_true,
          ite_false, ite_true]
        exact noDoubleDash_cons _ _ (ih true)
          (fun _ => collapseDashesAux_head_ne rest)
    · cases b with
      | true =>
        simp only [collapseDashesAux, hc, ite_false, if_neg]
        exact noDoubleDash_cons _ _ (ih false) (fun h => absurd h hc)
      | false =>
        simp only [collapseDashesAux, hc, ite_false, if_neg]
        exact noDoubleDash_cons _ _ (ih false) (fun h => absurd h hc)

/-- C9 counterexample: the claimed concrete values are wrong on the code.
The regex pipeline does not trim a trailing dash (`"The Wire!!"` maps to
`"the-wire-"`), and `_` is a word character so it is kept (`"A  B_C"`
maps to `"a-b_c"`, not `"a-b-c"`). -/
theorem c9_slug_counterexample :
    UTS.getTraktCacheStr "The Wire!!" ≠ "the-wire" ∧
      UTS.getTraktCacheStr "A  B_C" ≠ "a-b-c" := by
  refine ⟨?_, ?_⟩ <;> decide

/-- C9 (amended): `getTraktCacheStr` lowercases its input and replaces
every run of non-word characters with a single `-`; underscores are kept
and boundary dashes are not trimmed.  Concretely
`slug "The Wire!!" = "the-wire-"` and `slug "A  B_C" = "a-b_c"`; in
general the output never contains two adjacent dashes. -/
theorem c9_slug_normalization :
    UTS.getTraktCacheStr "The Wire!!" = "the-wire-" ∧
      UTS.getTraktCacheStr "A  B_C" = "a-b_c" ∧
      ∀ s : String, noDoubleDash (UTS.getTraktCacheStr s).data = true := by
  refine ⟨by decide, by decide, ?_⟩
  intro s
  exact noDoubleDash_collapseDashesAux _ false

/-- C8 counterexample: the year suffix is appended under JavaScript
truthiness, not presence.  For a movie with `year = some 0` the year is
present, yet the cache id is `"/movies/x"` and not `"/movies/x-0"` as the
claim requires. -/
theorem c8_cacheId_counterexample :
    UTS.getTraktCacheId { type := ItemType.movie, title := "x", year := some 0 } ≠
      "/movies/x-0" := by
  decide

/-- C8 (amended): the cache key is
`/shows/slug(title)/seasons/(season or 0)/episodes/(episode, or slug of
episodeTitle defaulting to "0")` for shows, and `/movies/slug(title)`
with a `-year` suffix exactly when the year is present and nonzero
(truthy) for movies; and the key depends on none of the other item fields
(here: `trakt` and `databaseId`), hence is deterministic across services. -/
theorem c8_cacheId_formula (it1 it2 it3 : Item) (t : Option TraktItem) (d : String)
    (hshow : it1.type = ItemType.show) (hmov : it2.type = ItemType.movie) :
    UTS.getTraktCacheId it1 =
        "/shows/" ++ UTS.getTraktCacheStr it1.title ++ "/seasons/" ++
          toString (it1.season.getD 0) ++ "/episodes/" ++
          (match it1.episode with
            | some e => toString e
            | none => UTS.getTraktCacheStr (it1.episodeTitle.getD "0")) ∧
      UTS.getTraktCacheId it2 =
        "/movies/" ++ UTS.getTraktCacheStr it2.title ++
          (match it2.year with
            | some y => if y = 0 then "" else "-" ++ toString y
            | none => "") ∧
      UTS.getTraktCacheId { it3 with trakt := t, databaseId := d } =
        UTS.getTraktCacheId it3 := by
  refine ⟨?_, ?_, rfl⟩
  · simp [getTraktCacheId, hshow]
  · simp [getTraktCacheId, hmov]

/-- C8 witness: the amended formula instantiated at a concrete show, a
concrete movie and a concrete third item. -/
theorem c8_cacheId_formula_witness :
    UTS.getTraktCacheId
        { type := ItemType.show, title := "The Wire", season := some 2,
          episodeTitle := some "Collateral Damage" } =
      "/shows/the-wire/seasons/2/episodes/collateral-damage" ∧
      UTS.getTraktCacheId { type := ItemType.movie, title := "Heat", year := some 1995 } =
        "/movies/heat-1995" ∧
      UTS.getTraktCacheId
          { (({ type := ItemType.movie, title := "Heat", year := some 1995 } : Item)) with
            trakt := some ⟨7, none⟩, databaseId := "db" } =
        UTS.getTraktCacheId { type := ItemType.movie, title := "Heat", year := some 1995 } :=
  c8_cacheId_formula
    { type := ItemType.show, title := "The Wire", season := some 2,
      episodeTitle := some "Collateral Damage" }
    { type := ItemType.movie, title := "Heat", year := some 1995 }
    { type := ItemType.movie, title := "Heat", year := some 1995 }
    (some ⟨7, none⟩) "db" rfl rfl

/-! ## The history reconciliation engine (`ServiceApi.loadHistory`) -/

/-- An error raised by an external call (`RequestException`): it carries a
`canceled` flag, plus an abstract code distinguishing errors. -/
structure Err where
  canceled : Bool
  code : Nat := 0
deriving DecidableEq

/-- The adapter surface the engine drives, with entries of type `ε` and
converted items of type `ι`.  `fetch n` is the outcome of the `n`-th call
to `loadHistoryItems` in this run: a page plus the resulting value of
`hasReachedHistoryEnd`.  `isNew` embeds `isNewHistoryItem` and `convert`
embeds `convertHistoryItems`. -/
structure Adapter (ε ι : Type) where
  fetch : Nat → Except Err (List ε × Bool)
  isNew : ε → Nat → String → Bool
  convert : List ε → Except Err (List ι)

/-- The mutable state of one `loadHistory` run: the local variables of the
do-while loop together with the instance fields `leftoverHistoryItems` and
`hasReachedHistoryEnd`, plus a counter of fetches issued. -/
structure LoopState (ε : Type) where
  itemsToLoad : Int
  hasReachedLastSyncDate : Bool
  historyItems : List ε
  leftover : List ε
  hasReachedHistoryEnd : Bool
  fetchCount : Nat
deriving DecidableEq

/-- The watermark scan over one page (the `for ... break` loop): accepted
entries are collected while the predicate holds; at the first rejected
entry the scan stops and returns the remainder of the page
(`responseItems.slice(index)`), or `none` when no entry was rejected. -/
def scanPage (p : ε → Bool) : List ε → List ε × Option (List ε)
  | [] => ([], none)
  | e :: rest =>
    if p e then
      let (acc, lo) := scanPage p rest
      (e :: acc, lo)
    else ([], some (e :: rest))

/-- Sourcing of one page: prefer the leftover buffer (emptying it),
otherwise fetch a new page unless `hasReachedHistoryEnd`, otherwise the
page is empty. -/
def sourcePage (ad : Adapter ε ι) (s : LoopState ε) :
    Except Err (List ε × LoopState ε) :=
  if s.leftover.length > 0 then
    .ok (s.leftover, { s with leftover := [] })
  else if s.hasReachedHistoryEnd = false then
    match ad.fetch s.fetchCount with
    | .error e => .error e
    | .ok (page, endFlag) =>
      .ok (page, { s with hasReachedHistoryEnd := endFlag, fetchCount := s.fetchCount + 1 })
  else .ok ([], s)

/-- One iteration of the do-while loop body of `loadHistory`. -/
def loadHistoryStep (ad : Adapter ε ι) (lastSync : Nat) (lastSyncId : String)
    (s : LoopState ε) : Except Err (LoopState ε) :=
  match sourcePage ad s with
  | .error e => .error e
  | .ok (resp, s1) =>
    if resp.length > 0 then
      let (filtered, s2) :=
        if 0 < lastSync ∧ lastSyncId ≠ "" then
          match scanPage (fun e => ad.isNew e lastSync lastSyncId) resp with
          | (acc, none) => (acc, s1)
          | (acc, some rest) =>
            (acc, { s1 with leftover := rest, hasReachedLastSyncDate := true })
        else (resp, s1)
      .ok { s2 with itemsToLoad := s2.itemsToLoad - filtered.length,
                    historyItems := s2.historyItems ++ filtered }
    else .ok s1

/-- The do-while loop of `loadHistory`, indexed by fuel since the source
loop has no intrinsic termination guarantee.  `ok none` means the loop was
still running when the fuel ran out; `ok (some s)` means it exited with
state `s`; `error e` means an iteration raised. -/
def loadHistoryLoop (ad : Adapter ε ι) (lastSync : Nat) (lastSyncId : String) :
    Nat → LoopState ε → Except Err (Option (LoopState ε))
  | 0, _ => .ok none
  | fuel + 1, s =>
    match loadHistoryStep ad lastSync lastSyncId s with
    | .error e => .error e
    | .ok s1 =>
      if (s1.hasReachedHistoryEnd || s1.hasReachedLastSyncDate) = false ∧
          0 < s1.itemsToLoad then
        loadHistoryLoop ad lastSync lastSyncId fuel s1
      else .ok (some s1)

/-- The payload written to the per-service sync store by `setData`. -/
structure StoreData (ι : Type) where
  items : List ι
  hasReachedEnd : Bool
  hasReachedLastSyncDate : Bool
deriving DecidableEq

/-- The observable outcome of one `loadHistory` run: the store write (if
any), whether the error channel and the `SERVICE_HISTORY_LOAD_ERROR`
event fired, the error re-raised to the caller (if any), and the final
loop state on success. -/
structure RunResult (ε ι : Type) where
  store : Option (StoreData ι)
  errorReported : Bool
  eventDispatched : Bool
  raised : Option Err
  finalState : Option (LoopState ε)
deriving DecidableEq

/-- The initial loop state of a run: `historyItems` starts empty, the
`hasReachedLastSyncDate` flag comes from the sync store, the leftover
buffer and `hasReachedHistoryEnd` are the adapter instance's fields. -/
def mkInitState (itemsToLoad : Int) (storeLastSyncFlag : Bool)
    (leftover0 : List ε) (end0 : Bool) : LoopState ε :=
  { itemsToLoad := itemsToLoad, hasReachedLastSyncDate := storeLastSyncFlag,
    historyItems := [], leftover := leftover0,
    hasReachedHistoryEnd := end0, fetchCount := 0 }

/-- The catch block of `loadHistory`: a canceled error is silent, any
other error is reported and dispatched; the error is always re-raised and
the store is never written. -/
def onError (e : Err) : RunResult ε ι :=
  { store := none, errorReported := !e.canceled, eventDispatched := !e.canceled,
    raised := some e, finalState := none }

/-- Embedding of `ServiceApi.loadHistory`.  Returns `none` when the loop
did not exit within `fuel` iterations. -/
def loadHistory (ad : Adapter ε ι) (fuel : Nat) (itemsToLoad : Int)
    (lastSync : Nat) (lastSyncId : String) (storeLastSyncFlag : Bool)
    (leftover0 : List ε) (end0 : Bool) : Option (RunResult ε ι) :=
  match loadHistoryLoop ad lastSync lastSyncId fuel
      (mkInitState itemsToLoad storeLastSyncFlag leftover0 end0) with
  | .error e => some (onError e)
  | .ok none => none
  | .ok (some s) =>
    match (if s.historyItems.isEmpty then .ok [] else ad.convert s.historyItems) with
    | .error e => some (onError e)
    | .ok items =>
      some { store := some ⟨items, s.hasReachedHistoryEnd || s.hasReachedLastSyncDate,
                            s.hasReachedLastSyncDate⟩,
             errorReported := false, eventDispatched := false,
             raised := none, finalState := some s }

/-- The base-class adapter: `loadHistoryItems` resolves to an empty page
and never sets `hasReachedHistoryEnd`, `isNewHistoryItem` is constantly
true, `convertHistoryItems` resolves to an empty list. -/
def defaultAdapter (ε ι : Type) : Adapter ε ι :=
  { fetch := fun _ => .ok ([], false),
    isNew := fun _ _ _ => true,
    convert := fun _ => .ok [] }

theorem scanPage_fst (p : ε → Bool) (l : List ε) :
    (scanPage p l).1 = l.takeWhile p := by
  induction l with
  | nil => rfl
  | cons e rest ih =>
    by_cases he : p e
    · simp [scanPage, he, List.takeWhile_cons, ih]
    · simp [scanPage, he, List.takeWhile_cons]

theorem scanPage_snd (p : ε → Bool) (l : List ε) :
    (scanPage p l).2 = if l.all p then none else some (l.dropWhile p) := by
  induction l with
  | nil => rfl
  | cons e rest ih =>
    by_cases he : p e
    · simp [scanPage, he, List.dropWhile_cons, ih]
    · simp [scanPage, he, List.dropWhile_cons]

/-- Whatever branch sources the page, the sourcing step does not touch the
accumulated entries, the watermark flag or the remaining count, and it
always leaves the leftover buffer empty. -/
theorem sourcePage_fields (ad : Adapter ε ι) (s s1 : LoopState ε) (resp : List ε)
    (h : sourcePage ad s = .ok (resp, s1)) :
    s1.historyItems = s.historyItems ∧ s1.hasReachedLastSyncDate = s.hasReachedLastSyncDate ∧
      s1.itemsToLoad = s.itemsToLoad ∧ s1.leftover = [] := by
  by_cases hl : s.leftover.length > 0
  · simp only [sourcePage, hl, if_pos] at h
    obtain ⟨-, rfl⟩ := Prod.mk.injEq .. ▸ (Except.ok.injEq .. ▸ h)
    simp
  · have hl0 : s.leftover = [] := by
      simpa using Nat.le_zero.mp (Nat.not_lt.mp hl)
    by_cases he : s.hasReachedHistoryEnd = false
    · simp only [sourcePage, hl, if_neg, if_pos, he, ite_false] at h
      cases hf : ad.fetch s.fetchCount with
      | error e => rw [hf] at h; exact absurd h (by simp)
      | ok pr =>
        rw [hf] at h
        obtain ⟨-, rfl⟩ := Prod.mk.injEq .. ▸ (Except.ok.injEq .. ▸ h)
        simp [hl0]
    · simp only [sourcePage, hl, he, if_neg, ite_false] at h
      obtain ⟨-, rfl⟩ := Prod.mk.injEq .. ▸ (Except.ok.injEq .. ▸ h)
      simp [hl0]

/-- Behaviour of one iteration under a set watermark: the accepted
entries are exactly the longest prefix of the page satisfying
`isNewHistoryItem`, and if some entry of the page was rejected then the
leftover buffer holds the page from the first rejected entry on and
`hasReachedLastSyncDate` is set. -/
theorem loadHistoryStep_watermark (ad : Adapter ε ι) (lastSync : Nat) (lastSyncId : String)
    (h1 : 0 < lastSync) (h2 : lastSyncId ≠ "")
    (s s1 s2 : LoopState ε) (resp : List ε)
    (hsrc : sourcePage ad s = .ok (resp, s1))
    (hstep : loadHistoryStep ad lastSync lastSyncId s = .ok s2) :
    s2.historyItems = s.historyItems ++ resp.takeWhile (fun e => ad.isNew e lastSync lastSyncId) ∧
      (resp.all (fun e => ad.isNew e lastSync lastSyncId) = false →
        s2.leftover = resp.dropWhile (fun e => ad.isNew e lastSync lastSyncId) ∧
          s2.hasReachedLastSyncDate = true) := by
  obtain ⟨hh, hd, -, -⟩ := sourcePage_fields ad s s1 resp hsrc
  simp only [loadHistoryStep, hsrc] at hstep
  by_cases hr : resp.length > 0
  · rw [if_pos hr, if_pos ⟨h1, h2⟩] at hstep
    rcases hsp : scanPage (fun e => ad.isNew e lastSync lastSyncId) resp with ⟨acc, lo⟩
    have hacc : acc = resp.takeWhile (fun e => ad.isNew e lastSync lastSyncId) := by
      have := scanPage_fst (fun e => ad.isNew e lastSync lastSyncId) resp
      rw [hsp] at this; exact this
    have hlo : lo = if resp.all (fun e => ad.isNew e lastSync lastSyncId) then none
        else some (resp.dropWhile (fun e => ad.isNew e lastSync lastSyncId)) := by
      have := scanPage_snd (fun e => ad.isNew e lastSync lastSyncId) resp
      rw [hsp] at this; exact this
    rw [hsp] at hstep
    cases lo with
    | none =>
      have hall : resp.all (fun e => ad.isNew e lastSync lastSyncId) = true := by
        by_contra hc
        rw [if_neg (by simpa using hc)] at hlo
        exact Option.noConfusion hlo
      obtain rfl := Except.ok.inj hstep
      refine ⟨by simp [hh, hacc], ?_⟩
      intro hfalse
      rw [hall] at hfalse
      exact absurd hfalse (by simp)
    | some rest =>
      have hall : resp.all (fun e => ad.isNew e lastSync lastSyncId) = false := by
        by_contra hc
        rw [if_pos (by simpa using hc)] at hlo
        exact Option.noConfusion hlo
      have hrest : rest = resp.dropWhile (fun e => ad.isNew e lastSync lastSyncId) := by
        rw [hall, if_neg (by simp)] at hlo
        exact Option.some.inj hlo
      obtain rfl := Except.ok.inj hstep
      exact ⟨by simp [hh, hacc], fun _ => ⟨by simp [hrest], rfl⟩⟩
  · have hresp : resp = [] := List.length_eq_zero.mp (Nat.le_zero.mp (Nat.not_lt.mp hr))
    rw [if_neg hr] at hstep
    obtain rfl := Except.ok.inj hstep
    subst hresp
    exact ⟨by simp [hh], fun hf => absurd hf (by simp)⟩

/-- Under a set watermark, one iteration preserves the invariant that all
accumulated entries satisfy `isNewHistoryItem`. -/
theorem loadHistoryStep_all_inv (ad : Adapter ε ι) (lastSync : Nat) (lastSyncId : String)
    (h1 : 0 < lastSync) (h2 : lastSyncId ≠ "")
    (s s2 : LoopState ε)
    (hstep : loadHistoryStep ad lastSync lastSyncId s = .ok s2)
    (hall : s.historyItems.all (fun e => ad.isNew e lastSync lastSyncId) = true) :
    s2.historyItems.all (fun e => ad.isNew e lastSync lastSyncId) = true := by
  have hsrc : ∃ pr, sourcePage ad s = .ok pr := by
    cases hs : sourcePage ad s with
    | error e => simp [loadHistoryStep, hs] at hstep
    | ok pr => exact ⟨pr, rfl⟩
  obtain ⟨⟨resp, s1⟩, hsrc⟩ := hsrc
  obtain ⟨hh, -⟩ :=
    loadHistoryStep_watermark ad lastSync lastSyncId h1 h2 s s1 s2 resp hsrc hstep
  rw [hh]
  simp only [List.all_append, Bool.and_eq_true]
  exact ⟨hall, List.all_takeWhile⟩

/-- Under a set watermark, a run of the loop never lets an entry rejected
by `isNewHistoryItem` into the accumulated list. -/
theorem loadHistoryLoop_all_inv (ad : Adapter ε ι) (lastSync : Nat) (lastSyncId : String)
    (h1 : 0 < lastSync) (h2 : lastSyncId ≠ "") (fuel : Nat) :
    ∀ s t : LoopState ε,
      loadHistoryLoop ad lastSync lastSyncId fuel s = .ok (some t) →
      s.historyItems.all (fun e => ad.isNew e lastSync lastSyncId) = true →
      t.historyItems.all (fun e => ad.isNew e lastSync lastSyncId) = true := by
  induction fuel with
  | zero => intro s t h; simp [loadHistoryLoop] at h
  | succ fuel ih =>
    intro s t h hall
    simp only [loadHistoryLoop] at h
    cases hstep : loadHistoryStep ad lastSync lastSyncId s with
    | error e => simp only [hstep] at h; exact absurd h (by simp)
    | ok s1 =>
      simp only [hstep] at h
      have hall1 := loadHistoryStep_all_inv ad lastSync lastSyncId h1 h2 s s1 hstep hall
      by_cases hg : (s1.hasReachedHistoryEnd || s1.hasReachedLastSyncDate) = false ∧
          0 < s1.itemsToLoad
      · rw [if_pos hg] at h
        exact ih s1 t h hall1
      · rw [if_neg hg] at h
        obtain rfl := Option.some.inj (Except.ok.inj h)
        exact hall1

/-- The loop exits only because the end flags are set or the remaining
target count is exhausted. -/
theorem loadHistoryLoop_exit (ad : Adapter ε ι) (lastSync : Nat) (lastSyncId : String)
    (fuel : Nat) :
    ∀ s t : LoopState ε,
      loadHistoryLoop ad lastSync lastSyncId fuel s = .ok (some t) →
      (t.hasReachedHistoryEnd || t.hasReachedLastSyncDate) = true ∨ t.itemsToLoad ≤ 0 := by
  induction fuel with
  | zero => intro s t h; simp [loadHistoryLoop] at h
  | succ fuel ih =>
    intro s t h
    simp only [loadHistoryLoop] at h
    cases hstep : loadHistoryStep ad lastSync lastSyncId s with
    | error e => simp only [hstep] at h; exact absurd h (by simp)
    | ok s1 =>
      simp only [hstep] at h
      by_cases hg : (s1.hasReachedHistoryEnd || s1.hasReachedLastSyncDate) = false ∧
          0 < s1.itemsToLoad
      · rw [if_pos hg] at h
        exact ih s1 t h
      · rw [if_neg hg] at h
        obtain rfl := Option.some.inj (Except.ok.inj h)
        rcases Bool.eq_false_or_eq_true (s1.hasReachedHistoryEnd || s1.hasReachedLastSyncDate)
          with hf | hf
        · exact Or.inl hf
        · have hle : ¬0 < s1.itemsToLoad := fun hlt => hg ⟨hf, hlt⟩
          exact Or.inr (by omega)

/-- Page sourcing ignores the remaining target count. -/
theorem sourcePage_set_itemsToLoad (ad : Adapter ε ι) (s : LoopState ε) (a : Int) :
    sourcePage ad { s with itemsToLoad := a } =
      (sourcePage ad s).map (fun pr => (pr.1, { pr.2 with itemsToLoad := a })) := by
  simp only [sourcePage]
  by_cases hl : s.leftover.length > 0
  · simp [hl, Except.map]
  · by_cases he : s.hasReachedHistoryEnd = false
    · simp only [hl, he, if_neg, if_pos, ite_false, not_false_eq_true]
      cases ad.fetch s.fetchCount <;> simp [Except.map]
    · have he2 : s.hasReachedHistoryEnd = true := by simpa using he
      simp [hl, he2, Except.map]

/-- One iteration treats the remaining target count as opaque: every other
component of the resulting state is independent of it (in particular a
negative count changes nothing about which entries are accepted). -/
theorem loadHistoryStep_set_itemsToLoad (ad : Adapter ε ι) (ls : Nat) (lsi : String)
    (s : LoopState ε) (a : Int) :
    (loadHistoryStep ad ls lsi { s with itemsToLoad := a }).map
        (fun u => { u with itemsToLoad := 0 }) =
      (loadHistoryStep ad ls lsi s).map (fun u => { u with itemsToLoad := 0 }) := by
  simp only [loadHistoryStep, sourcePage_set_itemsToLoad]
  cases hsrc : sourcePage ad s with
  | error e => simp [Except.map]
  | ok pr =>
    obtain ⟨resp, s1⟩ := pr
    simp only [Except.map]
    by_cases hr : resp.length > 0
    · by_cases hw : 0 < ls ∧ lsi ≠ ""
      · rcases hsp : scanPage (fun e => ad.isNew e ls lsi) resp with ⟨acc, lo⟩
        cases lo <;> simp [hr, hw, hsp]
      · simp [hr, hw]
    · simp [hr]

/-- With the base-class `loadHistoryItems` (always an empty page, never
setting `hasReachedHistoryEnd`), the loop never exits: any amount of fuel
is exhausted. -/
theorem loadHistoryLoop_default (ls : Nat) (lsi : String) (fuel : Nat) :
    ∀ s : LoopState ε, s.leftover = [] → s.hasReachedHistoryEnd = false →
      s.hasReachedLastSyncDate = false → 0 < s.itemsToLoad →
      loadHistoryLoop (defaultAdapter ε ι) ls lsi fuel s = .ok none := by
  induction fuel with
  | zero => intro s _ _ _ _; rfl
  | succ fuel ih =>
    intro s hl he hd hn
    have hstep : loadHistoryStep (defaultAdapter ε ι) ls lsi s =
        .ok { s with hasReachedHistoryEnd := false, fetchCount := s.fetchCount + 1 } := by
      simp [loadHistoryStep, sourcePage, hl, he, defaultAdapter]
    simp only [loadHistoryLoop, hstep]
    rw [if_pos (by constructor <;> simp [hd, hn])]
    exact ih _ hl rfl hd hn

/-- C1: with a set watermark, each sourced page is scanned in order:
exactly the longest all-new prefix is accepted, at the first rejected
entry the rest of the page (that entry included) becomes the leftover
buffer and `hasReachedLastSyncDate` is set; and across a whole run started
with an empty accumulator, every accumulated entry satisfies
`isNewHistoryItem`. -/
theorem c1_watermark_scan (ad : Adapter ε ι) (lastSync : Nat) (lastSyncId : String)
    (h1 : 0 < lastSync) (h2 : lastSyncId ≠ "")
    (s s1 s2 : LoopState ε) (resp : List ε)
    (hsrc : sourcePage ad s = .ok (resp, s1))
    (hstep : loadHistoryStep ad lastSync lastSyncId s = .ok s2)
    (hrej : resp.all (fun e => ad.isNew e lastSync lastSyncId) = false)
    (fuel : Nat) (s0 t : LoopState ε)
    (h0 : s0.historyItems = [])
    (hloop : loadHistoryLoop ad lastSync lastSyncId fuel s0 = .ok (some t)) :
    s2.historyItems =
        s.historyItems ++ resp.takeWhile (fun e => ad.isNew e lastSync lastSyncId) ∧
      s2.leftover = resp.dropWhile (fun e => ad.isNew e lastSync lastSyncId) ∧
      s2.hasReachedLastSyncDate = true ∧
      t.historyItems.all (fun e => ad.isNew e lastSync lastSyncId) = true := by
  obtain ⟨hh, himp⟩ :=
    loadHistoryStep_watermark ad lastSync lastSyncId h1 h2 s s1 s2 resp hsrc hstep
  obtain ⟨hl, hd⟩ := himp hrej
  refine ⟨hh, hl, hd, ?_⟩
  exact loadHistoryLoop_all_inv ad lastSync lastSyncId h1 h2 fuel s0 t hloop
    (by rw [h0]; rfl)

/-- C2: a non-empty leftover buffer is consumed as the page (and emptied)
with no fetch issued; and in general the fetch counter grows by one
exactly when the buffer is empty and the adapter has not signalled
end-of-feed. -/
theorem c2_leftover_first (ad ad2 : Adapter ε ι) (s s2 : LoopState ε)
    (r : List ε × LoopState ε)
    (hlo : s.leftover ≠ [])
    (hsrc2 : sourcePage ad2 s2 = .ok r) :
    sourcePage ad s = .ok (s.leftover, { s with leftover := [] }) ∧
      r.2.fetchCount = s2.fetchCount +
        (if s2.leftover.length = 0 ∧ s2.hasReachedHistoryEnd = false then 1 else 0) := by
  obtain ⟨rp, rs⟩ := r
  constructor
  · rw [sourcePage, if_pos (List.length_pos.mpr hlo)]
  · by_cases hl : s2.leftover.length > 0
    · simp only [sourcePage, hl, if_pos] at hsrc2
      obtain ⟨-, rfl⟩ := Prod.mk.injEq .. ▸ (Except.ok.injEq .. ▸ hsrc2)
      simp [Nat.pos_iff_ne_zero.mp hl]
    · have hl0 : s2.leftover.length = 0 := Nat.le_zero.mp (Nat.not_lt.mp hl)
      by_cases he : s2.hasReachedHistoryEnd = false
      · simp only [sourcePage, hl, he, if_neg, if_pos, ite_false, not_false_eq_true] at hsrc2
        cases hf : ad2.fetch s2.fetchCount with
        | error e => rw [hf] at hsrc2; exact absurd hsrc2 (by simp)
        | ok pr =>
          rw [hf] at hsrc2
          obtain ⟨-, rfl⟩ := Prod.mk.injEq .. ▸ (Except.ok.injEq .. ▸ hsrc2)
          simp [hl0, he]
      · simp only [sourcePage, hl, he, if_neg, ite_false] at hsrc2
        obtain ⟨-, rfl⟩ := Prod.mk.injEq .. ▸ (Except.ok.injEq .. ▸ hsrc2)
        simp [he]

/-- C3: the loop exits exactly when `hasReachedEnd` (the disjunction of
adapter end-of-feed and watermark arrival) holds or the remaining count is
exhausted; meeting the count never sets the stored `hasReachedEnd`, which
always equals that disjunction at the final state; a zero-length page by
itself changes neither the watermark flag nor the accumulator; and the
remaining count (which may be negative) has no influence on anything else
an iteration computes. -/
theorem c3_termination (ad1 : Adapter ε ι) (ls1 : Nat) (lsi1 : String) (fuel1 : Nat)
    (s0 t : LoopState ε)
    (hloop : loadHistoryLoop ad1 ls1 lsi1 fuel1 s0 = .ok (some t))
    (ad2 : Adapter ε ι) (ls2 : Nat) (lsi2 : String) (fuel2 : Nat) (u u1 : LoopState ε)
    (hstepu : loadHistoryStep ad2 ls2 lsi2 u = .ok u1)
    (hgu : (u1.hasReachedHistoryEnd || u1.hasReachedLastSyncDate) = false)
    (hgu2 : 0 < u1.itemsToLoad)
    (ad3 : Adapter ε ι) (ls3 : Nat) (lsi3 : String) (v v1 v2 : LoopState ε)
    (hsrcv : sourcePage ad3 v = .ok ([], v1))
    (hstepv : loadHistoryStep ad3 ls3 lsi3 v = .ok v2)
    (ad4 : Adapter ε ι) (ls4 : Nat) (lsi4 : String) (w : LoopState ε) (a : Int)
    (ad5 : Adapter ε ι) (fuel5 : Nat) (n5 : Int) (ls5 : Nat) (lsi5 : String)
    (f5 : Bool) (l5 : List ε) (e5 : Bool) (r : RunResult ε ι) (fs : LoopState ε)
    (d : StoreData ι)
    (hrun : loadHistory ad5 fuel5 n5 ls5 lsi5 f5 l5 e5 = some r)
    (hfs : r.finalState = some fs) (hst : r.store = some d) :
    ((t.hasReachedHistoryEnd || t.hasReachedLastSyncDate) = true ∨ t.itemsToLoad ≤ 0) ∧
      loadHistoryLoop ad2 ls2 lsi2 (fuel2 + 1) u = loadHistoryLoop ad2 ls2 lsi2 fuel2 u1 ∧
      (v2.hasReachedLastSyncDate = v.hasReachedLastSyncDate ∧
        v2.historyItems = v.historyItems) ∧
      (loadHistoryStep ad4 ls4 lsi4 { w with itemsToLoad := a }).map
          (fun x => { x with itemsToLoad := 0 }) =
        (loadHistoryStep ad4 ls4 lsi4 w).map (fun x => { x with itemsToLoad := 0 }) ∧
      d.hasReachedEnd = (fs.hasReachedHistoryEnd || fs.hasReachedLastSyncDate) := by
  refine ⟨loadHistoryLoop_exit ad1 ls1 lsi1 fuel1 s0 t hloop, ?_, ?_, ?_, ?_⟩
  · simp [loadHistoryLoop, hstepu, hgu, hgu2]
  · have hv2 : v2 = v1 := by
      simp only [loadHistoryStep, hsrcv] at hstepv
      exact (Except.ok.inj hstepv).symm
    obtain ⟨hh, hd, -, -⟩ := sourcePage_fields ad3 v v1 [] hsrcv
    exact ⟨hv2 ▸ hd, hv2 ▸ hh⟩
  · exact loadHistoryStep_set_itemsToLoad ad4 ls4 lsi4 w a
  · simp only [loadHistory] at hrun
    cases hlp : loadHistoryLoop ad5 ls5 lsi5 fuel5 (mkInitState n5 f5 l5 e5) with
    | error e =>
      rw [hlp] at hrun
      obtain rfl := Option.some.inj hrun
      exact absurd hfs (by simp [onError])
    | ok o =>
      rw [hlp] at hrun
      cases o with
      | none => exact absurd hrun (by simp)
      | some sfin =>
        simp only at hrun
        cases hcv : (if sfin.historyItems.isEmpty then Except.ok ([] : List ι)
            else ad5.convert sfin.historyItems) with
        | error e =>
          rw [hcv] at hrun
          obtain rfl := Option.some.inj hrun
          exact absurd hfs (by simp [onError])
        | ok items =>
          rw [hcv] at hrun
          obtain rfl := Option.some.inj hrun
          simp only at hfs hst
          obtain rfl := Option.some.inj hfs
          obtain rfl := Option.some.inj hst
          rfl

/-- C4: a canceled error, whether raised by a page fetch inside the loop
or by the final conversion, aborts the run silently: the store is not
written, nothing is reported to the error channel, no
`SERVICE_HISTORY_LOAD_ERROR` event fires (the error is still re-raised). -/
theorem c4_canceled_silent (ad1 : Adapter ε ι) (fuel1 : Nat) (n1 : Int) (ls1 : Nat)
    (lsi1 : String) (f1 : Bool) (l1 : List ε) (e1 : Bool) (er1 : Err)
    (hloopErr : loadHistoryLoop ad1 ls1 lsi1 fuel1 (mkInitState n1 f1 l1 e1) = .error er1)
    (hc1 : er1.canceled = true)
    (ad2 : Adapter ε ι) (fuel2 : Nat) (n2 : Int) (ls2 : Nat) (lsi2 : String)
    (f2 : Bool) (l2 : List ε) (e2 : Bool) (t : LoopState ε) (er2 : Err)
    (hloopOk : loadHistoryLoop ad2 ls2 lsi2 fuel2 (mkInitState n2 f2 l2 e2) = .ok (some t))
    (hne : t.historyItems.isEmpty = false)
    (hcv : ad2.convert t.historyItems = .error er2)
    (hc2 : er2.canceled = true) :
    loadHistory ad1 fuel1 n1 ls1 lsi1 f1 l1 e1 =
        some { store := none, errorReported := false, eventDispatched := false,
               raised := some er1, finalState := none } ∧
      loadHistory ad2 fuel2 n2 ls2 lsi2 f2 l2 e2 =
        some { store := none, errorReported := false, eventDispatched := false,
               raised := some er2, finalState := none } := by
  constructor
  · simp [loadHistory, hloopErr, onError, hc1]
  · simp [loadHistory, hloopOk, onError, hne, hcv, hc2]

/-- C5: a non-canceled error, whether raised by a page fetch inside the
loop or by the final conversion, is reported to the error channel, fires
the `SERVICE_HISTORY_LOAD_ERROR` event, leaves the store unwritten, and
the very same error is re-raised to the caller. -/
theorem c5_error_reported (ad1 : Adapter ε ι) (fuel1 : Nat) (n1 : Int) (ls1 : Nat)
    (lsi1 : String) (f1 : Bool) (l1 : List ε) (e1 : Bool) (er1 : Err)
    (hloopErr : loadHistoryLoop ad1 ls1 lsi1 fuel1 (mkInitState n1 f1 l1 e1) = .error er1)
    (hc1 : er1.canceled = false)
    (ad2 : Adapter ε ι) (fuel2 : Nat) (n2 : Int) (ls2 : Nat) (lsi2 : String)
    (f2 : Bool) (l2 : List ε) (e2 : Bool) (t : LoopState ε) (er2 : Err)
    (hloopOk : loadHistoryLoop ad2 ls2 lsi2 fuel2 (mkInitState n2 f2 l2 e2) = .ok (some t))
    (hne : t.historyItems.isEmpty = false)
    (hcv : ad2.convert t.historyItems = .error er2)
    (hc2 : er2.canceled = false) :
    loadHistory ad1 fuel1 n1 ls1 lsi1 f1 l1 e1 =
        some { store := none, errorReported := true, eventDispatched := true,
               raised := some er1, finalState := none } ∧
      loadHistory ad2 fuel2 n2 ls2 lsi2 f2 l2 e2 =
        some { store := none, errorReported := true, eventDispatched := true,
               raised := some er2, finalState := none } := by
  constructor
  · simp [loadHistory, hloopErr, onError, hc1]
  · simp [loadHistory, hloopOk, onError, hne, hcv, hc2]

/-- C10: with the base-class defaults (`loadHistoryItems` resolving to an
empty page and never setting `hasReachedHistoryEnd`), a call asking for a
positive number of items, with an empty leftover buffer and both flags
false, never terminates: no amount of fuel makes the do-while loop exit. -/
theorem c10_nontermination (ε ι : Type) (fuel : Nat) (n : Int) (ls : Nat) (lsi : String)
    (hn : 0 < n) :
    loadHistory (defaultAdapter ε ι) fuel n ls lsi false [] false = none := by
  rw [loadHistory, loadHistoryLoop_default ls lsi fuel (mkInitState n false [] false)
    rfl rfl rfl hn]

/-! ## Catalog resolution pipeline (`loadTraktHistory`, `loadTraktItemHistory`) -/

/-- A manual correction (`Suggestion` from `CorrectionApi`), abstracted to
the catalog identity it forces. -/
structure Suggestion where
  traktId : Nat
deriving DecidableEq

/-- The `traktCache` mapping, as an association list keyed by cache id.
JavaScript object assignment overwrites, so insertion prepends and lookup
takes the first hit. -/
abbrev TraktCache := List (String × SavedTraktItem)

def cacheFind (c : TraktCache) (k : String) : Option SavedTraktItem :=
  (c.find? (fun p => p.1 == k)).map (·.2)

def cacheInsert (c : TraktCache) (k : String) (v : SavedTraktItem) : TraktCache :=
  (k, v) :: c

/-- Outcomes of the two remote calls one item's resolution can make:
`find` is `TraktSearch.find(item, correction)` (indexed by the correction
passed) and `sync` is `TraktSync.loadHistory(item)`, whose success leaves
the item's catalog entry with the given optional `watchedAt`. -/
structure ResolveEnv where
  find : Option Suggestion → Except Err TraktItem
  sync : Except Err (Option Nat)

def emptyResolveEnv : ResolveEnv :=
  { find := fun _ => .error { canceled := false }, sync := .error { canceled := false } }

/-- The resolution choice inside `loadTraktItemHistory`:
`correction || !cacheItem ? await TraktSearch.find(item, correction)
: TraktItem.load(cacheItem)`. -/
def resolveTrakt (env : ResolveEnv) (correction : Option Suggestion)
    (cacheItem : Option SavedTraktItem) : Except Err TraktItem :=
  if correction.isSome || cacheItem.isNone then env.find correction
  else .ok (TraktItem.load (cacheItem.getD ⟨0, none⟩))

/-- The `if (!item.trakt)` assignment of `loadTraktItemHistory`: resolve
the catalog entry when the item lacks one, looking the cache up at the
item's cache id. -/
def resolveItemTrakt (env : ResolveEnv) (item : Item) (traktCache : TraktCache)
    (correction : Option Suggestion) : Except Err Item :=
  match item.trakt with
  | some _ => .ok item
  | none =>
    match resolveTrakt env correction (cacheFind traktCache (getTraktCacheId item)) with
    | .ok t => .ok { item with trakt := some t }
    | .error e => .error e

/-- The try-block of `loadTraktItemHistory`: resolve a missing catalog
entry, then, when `watchedAt` is still missing, fetch the watched history
and write the updated entry back into the cache.  An error carries the
item/cache state at the throw point. -/
def loadTraktItemHistoryAux (env : ResolveEnv) (item : Item) (traktCache : TraktCache)
    (correction : Option Suggestion) : Except (Item × TraktCache) (Item × TraktCache) :=
  match resolveItemTrakt env item traktCache correction with
  | .error _ => .error (item, traktCache)
  | .ok item1 =>
    match item1.trakt with
    | some t =>
      if t.watchedAt = none then
        match env.sync with
        | .ok w =>
          let t2 : TraktItem := { t with watchedAt := w }
          .ok ({ item1 with trakt := some t2 },
            cacheInsert traktCache (getTraktCacheId item) (TraktItem.save t2))
        | .error _ => .error (item1, traktCache)
      else .ok (item1, traktCache)
    | none => .ok (item1, traktCache)

/-- The catch-block of `loadTraktItemHistory`:
`if (item.trakt) delete item.trakt.watchedAt`. -/
def deleteWatchedAt (item : Item) : Item :=
  { item with trakt := item.trakt.map (fun t => { t with watchedAt := none }) }

/-- Embedding of `ServiceApi.loadTraktItemHistory`: the try-block with the
catch-all handler.  It never raises. -/
def loadTraktItemHistory (env : ResolveEnv) (item : Item) (traktCache : TraktCache)
    (correction : Option Suggestion) : Item × TraktCache :=
  match loadTraktItemHistoryAux env item traktCache correction with
  | .ok pr => pr
  | .error pr => (deleteWatchedAt pr.1, pr.2)

/-- The missing-item filter of `loadTraktHistory`. -/
def isMissingTrakt (item : Item) : Bool :=
  match item.trakt with
  | none => true
  | some t => t.watchedAt.isNone

/-- The batch of `loadTraktHistory`: each (missing) item is resolved with
its own environment and the correction keyed by its database id, threading
the shared cache.  This linearizes the `Promise.all` fan-out, which is
sound because each item settles on its own and the cache is the only
shared state. -/
def loadTraktItemsHistory :
    List ResolveEnv → List Item → TraktCache → (String → Option Suggestion) →
      List Item × TraktCache
  | _, [], cache, _ => ([], cache)
  | envs, item :: items, cache, corrections =>
    let pr1 := loadTraktItemHistory (envs.headD emptyResolveEnv) item cache
      (corrections item.getDatabaseId)
    let pr2 := loadTraktItemsHistory envs.tail items pr1.2 corrections
    (pr1.1 :: pr2.1, pr2.2)

theorem loadTraktItemsHistory_length (envs : List ResolveEnv) (items : List Item)
    (cache : TraktCache) (corrections : String → Option Suggestion) :
    (loadTraktItemsHistory envs items cache corrections).1.length = items.length := by
  induction items generalizing envs cache with
  | nil => rfl
  | cons item items ih => simp [loadTraktItemsHistory, ih]

/-- A per-item failure leaves the cache untouched: the cache write happens
only after the watched-history fetch succeeded. -/
theorem loadTraktItemHistoryAux_error_cache (env : ResolveEnv) (item : Item)
    (traktCache : TraktCache) (correction : Option Suggestion) (pr : Item × TraktCache)
    (h : loadTraktItemHistoryAux env item traktCache correction = .error pr) :
    pr.2 = traktCache := by
  simp only [loadTraktItemHistoryAux] at h
  cases hres : resolveItemTrakt env item traktCache correction with
  | error e =>
    simp only [hres] at h
    cases (Except.error.inj h).symm
    rfl
  | ok item1 =>
    simp only [hres] at h
    cases ht : item1.trakt with
    | none => simp only [ht] at h; exact absurd h (by simp)
    | some t =>
      simp only [ht] at h
      by_cases hw : t.watchedAt = none
      · rw [if_pos hw] at h
        cases hs : env.sync with
        | ok w => simp only [hs] at h; exact absurd h (by simp)
        | error e2 =>
          simp only [hs] at h
          cases (Except.error.inj h).symm
          rfl
      · rw [if_neg hw] at h
        exact absurd h (by simp)

theorem deleteWatchedAt_bind (item : Item) :
    (deleteWatchedAt item).trakt.bind TraktItem.watchedAt = none := by
  cases h : item.trakt <;> simp [deleteWatchedAt, h]

/-- C6: for an item without a catalog entry, a correction always routes
resolution through the remote search with the correction, ignoring any
cache entry; with no correction a cache hit is loaded from the cache; and
with neither a plain remote search is performed.  The cache is consulted
at the item's cache id. -/
theorem c6_resolution_precedence (env : ResolveEnv) (corr : Suggestion)
    (cacheItem : Option SavedTraktItem) (c : SavedTraktItem)
    (item : Item) (cache : TraktCache) (correction : Option Suggestion)
    (hmiss : item.trakt = none) :
    resolveTrakt env (some corr) cacheItem = env.find (some corr) ∧
      resolveTrakt env none (some c) = .ok (TraktItem.load c) ∧
      resolveTrakt env none none = env.find none ∧
      resolveItemTrakt env item cache correction =
        (resolveTrakt env correction (cacheFind cache (getTraktCacheId item))).map
          (fun t => { item with trakt := some t }) := by
  refine ⟨rfl, rfl, rfl, ?_⟩
  simp only [resolveItemTrakt, hmiss]
  cases h : resolveTrakt env correction (cacheFind cache (getTraktCacheId item)) <;>
    simp [Except.map]

/-- C7: a failing item never fails the batch: the result list always has
one entry per item; the failing item's own outcome is just its state at
the failure point with `watchedAt` discarded (so its final entry carries
no `watchedAt`) and the shared cache is left exactly as it was; and the
sibling items of a batch headed by a failing item resolve exactly as they
would in a batch without it. -/
theorem c7_batch_isolation (envs : List ResolveEnv) (items : List Item)
    (cache : TraktCache) (corrections : String → Option Suggestion)
    (env2 : ResolveEnv) (item2 : Item) (cache2 : TraktCache)
    (corr2 : Option Suggestion) (pr2 : Item × TraktCache)
    (hfail2 : loadTraktItemHistoryAux env2 item2 cache2 corr2 = .error pr2)
    (env3 : ResolveEnv) (envs3 : List ResolveEnv) (item3 : Item) (items3 : List Item)
    (cache3 : TraktCache) (corrs3 : String → Option Suggestion) (pr3 : Item × TraktCache)
    (hfail3 : loadTraktItemHistoryAux env3 item3 cache3 (corrs3 item3.getDatabaseId) =
      .error pr3) :
    (loadTraktItemsHistory envs items cache corrections).1.length = items.length ∧
      loadTraktItemHistory env2 item2 cache2 corr2 = (deleteWatchedAt pr2.1, cache2) ∧
      (loadTraktItemHistory env2 item2 cache2 corr2).1.trakt.bind TraktItem.watchedAt =
        none ∧
      (loadTraktItemsHistory (env3 :: envs3) (item3 :: items3) cache3 corrs3).1 =
        deleteWatchedAt pr3.1 :: (loadTraktItemsHistory envs3 items3 cache3 corrs3).1 := by
  have hc2 := loadTraktItemHistoryAux_error_cache env2 item2 cache2 corr2 pr2 hfail2
  have hc3 := loadTraktItemHistoryAux_error_cache env3 item3 cache3
    (corrs3 item3.getDatabaseId) pr3 hfail3
  have hrun2 : loadTraktItemHistory env2 item2 cache2 corr2 = (deleteWatchedAt pr2.1, cache2) := by
    simp only [loadTraktItemHistory, hfail2]
    rw [hc2]
  refine ⟨loadTraktItemsHistory_length envs items cache corrections, hrun2, ?_, ?_⟩
  · rw [hrun2]
    exact deleteWatchedAt_bind pr2.1
  · have hrun3 : loadTraktItemHistory env3 item3 cache3 (corrs3 item3.getDatabaseId) =
        (deleteWatchedAt pr3.1, cache3) := by
      simp only [loadTraktItemHistory, hfail3]
      rw [hc3]
    simp [loadTraktItemsHistory, hrun3]

/-! ## Concrete scenarios instantiating the hypothesis-bearing theorems -/

/-- A service adapter whose single page is `[5, 4, 3, 2]` (newest first)
and whose watermark test is a strict timestamp comparison. -/
def adScanW : Adapter Nat Nat :=
  { fetch := fun _ => .ok ([5, 4, 3, 2], false),
    isNew := fun e ls _ => decide (ls < e),
    convert := fun l => .ok l }

/-- An adapter whose fetch rejects with a canceled error. -/
def adFetchCanceled : Adapter Nat Nat :=
  { fetch := fun _ => .error { canceled := true, code := 1 },
    isNew := fun _ _ _ => true,
    convert := fun l => .ok l }

/-- An adapter whose conversion rejects with a canceled error. -/
def adConvertCanceled : Adapter Nat Nat :=
  { fetch := fun _ => .ok ([1, 2], true),
    isNew := fun _ _ _ => true,
    convert := fun _ => .error { canceled := true, code := 2 } }

/-- An adapter whose fetch rejects with a non-canceled error. -/
def adFetchFailed : Adapter Nat Nat :=
  { fetch := fun _ => .error { canceled := false, code := 3 },
    isNew := fun _ _ _ => true,
    convert := fun l => .ok l }

/-- An adapter whose conversion rejects with a non-canceled error. -/
def adConvertFailed : Adapter Nat Nat :=
  { fetch := fun _ => .ok ([1, 2], true),
    isNew := fun _ _ _ => true,
    convert := fun _ => .error { canceled := false, code := 4 } }

/-- A resolution environment whose remote calls all succeed. -/
def envResolveOk : ResolveEnv :=
  { find := fun _ => .ok ⟨42, none⟩, sync := .ok (some 99) }

/-- A resolution environment whose remote calls all fail. -/
def envResolveFail : ResolveEnv :=
  { find := fun _ => .error { canceled := false, code := 3 },
    sync := .error { canceled := false, code := 3 } }

/-- C1 witness: the watermark scan on the page `[5, 4, 3, 2]` with
`lastSync = 3` accepts `[5, 4]`, buffers `[3, 2]` and sets the flag. -/
theorem c1_watermark_scan_witness :
    ([5, 4] : List Nat) = [] ++ List.takeWhile (fun e => adScanW.isNew e 3 "id") [5, 4, 3, 2] ∧
      ([3, 2] : List Nat) = List.dropWhile (fun e => adScanW.isNew e 3 "id") [5, 4, 3, 2] ∧
      true = true ∧
      List.all [5, 4] (fun e => adScanW.isNew e 3 "id") = true :=
  c1_watermark_scan adScanW 3 "id" (by decide) (by decide)
    (mkInitState 10 false [] false) ⟨10, false, [], [], false, 1⟩
    ⟨8, true, [5, 4], [3, 2], false, 1⟩ [5, 4, 3, 2] rfl rfl (by decide)
    5 (mkInitState 10 false [] false) ⟨8, true, [5, 4], [3, 2], false, 1⟩ rfl rfl

/-- C2 witness: a leftover buffer `[9]` is consumed as the page with no
fetch, while an empty buffer with the feed not ended costs one fetch. -/
theorem c2_leftover_first_witness :
    sourcePage adScanW ⟨5, false, [], [9], false, 0⟩ =
        .ok ([9], ⟨5, false, [], [], false, 0⟩) ∧
      (1 : Nat) = 0 + (if (0 : Nat) = 0 ∧ false = false then 1 else 0) :=
  c2_leftover_first adScanW adScanW ⟨5, false, [], [9], false, 0⟩
    (mkInitState 5 false [] false) ([5, 4, 3, 2], ⟨5, false, [], [], false, 1⟩)
    (by decide) rfl

/-- C3 witness: the five termination facts instantiated on concrete runs
of the scan adapter and the default adapter. -/
theorem c3_termination_witness :
    ((false || true) = true ∨ (8 : Int) ≤ 0) ∧
      loadHistoryLoop adScanW 0 "" 4 (mkInitState 10 false [] false) =
        loadHistoryLoop adScanW 0 "" 3 ⟨6, false, [5, 4, 3, 2], [], false, 1⟩ ∧
      (false = false ∧ ([] : List Nat) = []) ∧
      (loadHistoryStep adScanW 3 "id"
            { mkInitState 4 false [] false with itemsToLoad := -5 }).map
          (fun x => { x with itemsToLoad := 0 }) =
        (loadHistoryStep adScanW 3 "id" (mkInitState 4 false [] false)).map
          (fun x => { x with itemsToLoad := 0 }) ∧
      true = (false || true) :=
  c3_termination adScanW 3 "id" 5 (mkInitState 10 false [] false)
    ⟨8, true, [5, 4], [3, 2], false, 1⟩ rfl
    adScanW 0 "" 3 (mkInitState 10 false [] false) ⟨6, false, [5, 4, 3, 2], [], false, 1⟩
    rfl rfl (by decide)
    (defaultAdapter Nat Nat) 0 "" (mkInitState 5 false [] false)
    ⟨5, false, [], [], false, 1⟩ ⟨5, false, [], [], false, 1⟩ rfl rfl
    adScanW 3 "id" (mkInitState 4 false [] false) (-5)
    adScanW 5 10 3 "id" false [] false
    { store := some ⟨[5, 4], true, true⟩, errorReported := false, eventDispatched := false,
      raised := none, finalState := some ⟨8, true, [5, 4], [3, 2], false, 1⟩ }
    ⟨8, true, [5, 4], [3, 2], false, 1⟩ ⟨[5, 4], true, true⟩ rfl rfl rfl

/-- C4 witness: a canceled fetch error and a canceled conversion error
both abort silently. -/
theorem c4_canceled_silent_witness :
    loadHistory adFetchCanceled 3 5 0 "" false [] false =
        some { store := none, errorReported := false, eventDispatched := false,
               raised := some { canceled := true, code := 1 }, finalState := none } ∧
      loadHistory adConvertCanceled 3 5 0 "" false [] false =
        some { store := none, errorReported := false, eventDispatched := false,
               raised := some { canceled := true, code := 2 }, finalState := none } :=
  c4_canceled_silent adFetchCanceled 3 5 0 "" false [] false
    { canceled := true, code := 1 } rfl rfl
    adConvertCanceled 3 5 0 "" false [] false ⟨3, false, [1, 2], [], true, 1⟩
    { canceled := true, code := 2 } rfl rfl rfl rfl

/-- C5 witness: a non-canceled fetch error and a non-canceled conversion
error are both reported, dispatched and re-raised. -/
theorem c5_error_reported_witness :
    loadHistory adFetchFailed 3 5 0 "" false [] false =
        some { store := none, errorReported := true, eventDispatched := true,
               raised := some { canceled := false, code := 3 }, finalState := none } ∧
      loadHistory adConvertFailed 3 5 0 "" false [] false =
        some { store := none, errorReported := true, eventDispatched := true,
               raised := some { canceled := false, code := 4 }, finalState := none } :=
  c5_error_reported adFetchFailed 3 5 0 "" false [] false
    { canceled := false, code := 3 } rfl rfl
    adConvertFailed 3 5 0 "" false [] false ⟨3, false, [1, 2], [], true, 1⟩
    { canceled := false, code := 4 } rfl rfl rfl rfl

/-- C6 witness: the resolution branches instantiated on a concrete item,
cache and correction. -/
theorem c6_resolution_precedence_witness :
    resolveTrakt envResolveOk (some ⟨9⟩) (some ⟨7, some 1⟩) = envResolveOk.find (some ⟨9⟩) ∧
      resolveTrakt envResolveOk none (some ⟨7, some 1⟩) = .ok (TraktItem.load ⟨7, some 1⟩) ∧
      resolveTrakt envResolveOk none none = envResolveOk.find none ∧
      resolveItemTrakt envResolveOk { type := ItemType.movie, title := "x" }
          [("/movies/x", ⟨7, some 1⟩)] none =
        (resolveTrakt envResolveOk none
            (cacheFind [("/movies/x", ⟨7, some 1⟩)]
              (getTraktCacheId { type := ItemType.movie, title := "x" }))).map
          (fun t => { ({ type := ItemType.movie, title := "x" } : Item) with trakt := some t }) :=
  c6_resolution_precedence envResolveOk ⟨9⟩ (some ⟨7, some 1⟩) ⟨7, some 1⟩
    { type := ItemType.movie, title := "x" } [("/movies/x", ⟨7, some 1⟩)] none rfl

/-- C7 witness: the batch facts instantiated on a batch headed by an item
whose remote search fails. -/
theorem c7_batch_isolation_witness :
    (loadTraktItemsHistory [envResolveOk] [{ type := ItemType.movie, title := "a" }] []
          (fun _ => none)).1.length =
        ([{ type := ItemType.movie, title := "a" }] : List Item).length ∧
      loadTraktItemHistory envResolveFail { type := ItemType.movie, title := "a" }
          [("/movies/z", ⟨1, some 2⟩)] none =
        (deleteWatchedAt ({ type := ItemType.movie, title := "a" },
            ([("/movies/z", ⟨1, some 2⟩)] : TraktCache)).1,
          [("/movies/z", ⟨1, some 2⟩)]) ∧
      (loadTraktItemHistory envResolveFail { type := ItemType.movie, title := "a" }
            [("/movies/z", ⟨1, some 2⟩)] none).1.trakt.bind TraktItem.watchedAt = none ∧
      (loadTraktItemsHistory (envResolveFail :: [envResolveOk])
            ({ type := ItemType.movie, title := "a" } ::
              [{ type := ItemType.movie, title := "b" }]) [] (fun _ => none)).1 =
        deleteWatchedAt ({ type := ItemType.movie, title := "a" }, ([] : TraktCache)).1 ::
          (loadTraktItemsHistory [envResolveOk] [{ type := ItemType.movie, title := "b" }] []
            (fun _ => none)).1 :=
  c7_batch_isolation [envResolveOk] [{ type := ItemType.movie, title := "a" }] []
    (fun _ => none)
    envResolveFail { type := ItemType.movie, title := "a" } [("/movies/z", ⟨1, some 2⟩)]
    none ({ type := ItemType.movie, title := "a" }, [("/movies/z", ⟨1, some 2⟩)]) rfl
    envResolveFail [envResolveOk] { type := ItemType.movie, title := "a" }
    [{ type := ItemType.movie, title := "b" }] [] (fun _ => none)
    ({ type := ItemType.movie, title := "a" }, []) rfl

/-- C10 witness: seven units of fuel are exhausted on a concrete call with
the default adapter. -/
theorem c10_nontermination_witness :
    loadHistory (defaultAdapter Nat Nat) 7 1 0 "" false [] false = none :=
  c10_nontermination Nat Nat 7 1 0 "" (by decide)

end UTS
